import Mathlib

/-!
Verification development for the trend-credibility dashboard front-end
(`src/app.js`).  The aggregation-and-rendering pipeline of the script is
embedded shallowly:

* numeric score fields (`fake_probability`, …) are modelled as exact
  rationals (`ℚ`);
* a JavaScript string field that may be `undefined`/`null`/`""` (all falsy
  for the `||` operator) is modelled as a `String`, with `""` standing for
  the whole falsy class, since the code only ever distinguishes falsy from
  truthy via `||`;
* the `source_health` object is modelled as an insertion-ordered
  association list, matching the enumeration order of `Object.entries`;
* DOM writes are modelled as fields of an explicit view-model record; the
  `fetch`/`await` control flow of `runAnalysis` is modelled both as a
  single settled refresh cycle (`runAnalysisStep`) and as an event-level
  transition system (`uiStep`) in which issuing a request and its later
  settling are separate events;
* a successfully parsed payload carries `RawResult` items whose fields may
  each be absent, so that well-formed-JSON payloads of the wrong shape —
  and the TypeErrors they raise inside the renderers — are representable;
* the `Number` builtin applied to the limit control's string value is
  modelled by `jsNumberOfString`, an exact-rational reading of the ECMA-262
  string numeric literal grammar.
-/

/-- The `trend` record of an analysis result (`item.trend` in `src/app.js`).
`category` is a string; `""` models an absent/falsy category. -/
structure TrendRef where
  platform : String
  title : String
  url : String
  category : String
deriving DecidableEq, Repr

/-- One evidence article (`item.evidence.articles[i]`). -/
structure EvidenceArticle where
  source : String
  article_url : String
deriving DecidableEq, Repr

/-- The `evidence` record of an analysis result. -/
structure EvidenceSummary where
  credible_hits : Nat
  source_diversity : Nat
  confidence : ℚ
  articles : List EvidenceArticle
deriving DecidableEq, Repr

/-- One analysis result as consumed by the dashboard (`data.results[i]`). -/
structure AnalysisResult where
  trend : TrendRef
  verdict : String
  fake_probability : ℚ
  spread_index : ℚ
  credibility_score : ℚ
  reasons : List String
  evidence : EvidenceSummary
deriving DecidableEq, Repr

/-- One entry of the `CATEGORIES` table of `src/app.js`. -/
structure Category where
  id : String
  label : String
deriving DecidableEq, Repr

/-- The `CATEGORIES` constant of `src/app.js`, verbatim. -/
def CATEGORIES : List Category :=
  [⟨"all", "All"⟩, ⟨"local", "Local"⟩, ⟨"india", "India"⟩, ⟨"world", "World"⟩,
   ⟨"entertainment", "Entertainment"⟩, ⟨"health", "Health"⟩, ⟨"trending", "Trending"⟩,
   ⟨"sports", "Sports"⟩, ⟨"esports", "Esports"⟩, ⟨"food", "Food"⟩, ⟨"events", "Events"⟩]

/-- The category ids that the "all" view of `renderCards` iterates over:
`CATEGORIES.filter((c) => c.id !== "all")`, projected to ids. -/
def knownIds : List String :=
  (CATEGORIES.filter (fun c => c.id ≠ "all")).map (fun c => c.id)

/-- Lookup in `CATEGORY_LABELS` with the `|| selectedCategory` fallback used by
`runAnalysis` when building the status line. -/
def categoryLabel (c : String) : String :=
  match CATEGORIES.find? (fun cat => cat.id == c) with
  | some cat => cat.label
  | none => c

/-- The dashboard summary computed by `renderSummary` (src/app.js:82-92). -/
structure DashboardSummary where
  total : Nat
  misleading_count : Nat
  real_count : Nat
  avg_fake_probability : ℚ
deriving DecidableEq, Repr

/-- Pure core of `renderSummary` (src/app.js:82-92): counts, and the
`reduce`/`length` average with the `total === 0 ? 0` guard.  The JS
left-to-right `reduce` is `List.foldl`. -/
def renderSummary (results : List AnalysisResult) : DashboardSummary :=
  let total := results.length
  let misleading := (results.filter (fun r => r.verdict = "Likely Misleading")).length
  let real := (results.filter (fun r => r.verdict = "Likely Real")).length
  let avgFake : ℚ :=
    if total = 0 then 0
    else (results.foldl (fun sum r => sum + r.fake_probability) 0) / total
  ⟨total, misleading, real, avgFake⟩

/-- One source-health pill produced by `renderSourceHealth`. -/
structure Pill where
  label : String
  ok : Bool
deriving DecidableEq, Repr

/-- JavaScript `source.replace("_", " ")`: with a string pattern, `replace`
substitutes only the FIRST occurrence. -/
def replaceFirstUnderscore : List Char → List Char
  | [] => []
  | c :: cs => if c = '_' then ' ' :: cs else c :: replaceFirstUnderscore cs

/-- JavaScript `hay.includes(needle)`: substring containment on the character
sequence. -/
def strContains (needle : List Char) : List Char → Bool
  | [] => needle.isEmpty
  | c :: t => needle.isPrefixOf (c :: t) || strContains needle t

/-- The health flag of `renderSourceHealth` (src/app.js:71-80):
`String(status).startsWith("ok") || String(status).includes("fallback")`,
on the character sequence of the status string. -/
def okFlag (status : String) : Bool :=
  "ok".toList.isPrefixOf status.toList || strContains "fallback".toList status.toList

/-- Pure core of `renderSourceHealth` (src/app.js:71-80): one pill per
`Object.entries` pair, in enumeration order; label
`` `${source.replace("_", " ")}: ${status}` ``. -/
def renderSourceHealth (sourceHealth : List (String × String)) : List Pill :=
  sourceHealth.map (fun p =>
    ⟨String.mk (replaceFirstUnderscore p.1.toList) ++ ": " ++ p.2, okFlag p.2⟩)

/-- A rendered category section of the "all" view. -/
structure CategoryGroup where
  category_id : String
  label : String
  items : List AnalysisResult
deriving DecidableEq, Repr

/-- The grouping key of the "all" branch of `renderCards` (src/app.js:141):
`item.trend.category || "trending"` (falsy category falls back). -/
def assignedCategory (item : AnalysisResult) : String :=
  if item.trend.category = "" then "trending" else item.trend.category

/-- The "all" branch of `renderCards` (src/app.js:140-160): results are
grouped by `assignedCategory` into an insertion-ordered `Map`, then the
known categories other than `"all"` are traversed in `CATEGORIES` order,
skipping empty groups (`if (!items.length) return`).  The `Map` lookup
`groups.get(category.id) || []` returns, in input order, exactly the items
whose grouping key is that id, i.e. a filter of the input. -/
def partitionAllGroups (results : List AnalysisResult) : List CategoryGroup :=
  (CATEGORIES.filter (fun c => c.id ≠ "all")).filterMap (fun c =>
    let items := results.filter (fun r => assignedCategory r = c.id)
    if items.isEmpty then none else some ⟨c.id, c.label, items⟩)

/-- What `renderCards` hands to the DOM: either category sections ("all"
mode) or a flat card list (single-category mode). -/
inductive RenderOutput
  | grouped (groups : List CategoryGroup)
  | flat (items : List AnalysisResult)
deriving DecidableEq, Repr

/-- Pure core of `renderCards` (src/app.js:138-166): the "all" branch groups,
every other selection appends one card per result, in input order, with no
filtering or grouping. -/
def renderCards (selectedCategory : String) (results : List AnalysisResult) : RenderOutput :=
  if selectedCategory = "all" then .grouped (partitionAllGroups results)
  else .flat results

/-- A JavaScript number: NaN, a signed infinity, or a finite value.  Finite
values are carried as exact rationals; JS additionally rounds every finite
value to the nearest binary64 float, which is exact on the small integers
this limit control is meant to hold — that final rounding is the one aspect
left outside the embedding. -/
inductive JsNum
  | nan
  | inf (neg : Bool)
  | num (q : ℚ)
deriving DecidableEq, Repr

/-- The white-space and line-terminator code points that the JS `Number`
coercion strips from both ends of a string (ECMA-262 StrWhiteSpaceChar):
TAB, LF, VT, FF, CR, SP, NBSP, OGHAM SP, U+2000..U+200A, LS, PS, NNBSP,
MMSP, IDEOGRAPHIC SP, ZWNBSP. -/
def jsIsWhiteSpace (c : Char) : Bool :=
  c.toNat = 9 ∨ c.toNat = 10 ∨ c.toNat = 11 ∨ c.toNat = 12 ∨ c.toNat = 13 ∨
  c.toNat = 32 ∨ c.toNat = 160 ∨ c.toNat = 5760 ∨
  (8192 ≤ c.toNat ∧ c.toNat ≤ 8202) ∨ c.toNat = 8232 ∨ c.toNat = 8233 ∨
  c.toNat = 8239 ∨ c.toNat = 8287 ∨ c.toNat = 12288 ∨ c.toNat = 65279

/-- Value of a hexadecimal digit character (0 on non-digits; callers guard). -/
def hexDigitVal (c : Char) : Nat :=
  if c.isDigit then c.toNat - 48
  else if 'a' ≤ c ∧ c ≤ 'f' then c.toNat - 87
  else if 'A' ≤ c ∧ c ≤ 'F' then c.toNat - 55
  else 0

/-- Whether `c` is a digit of the given radix (2, 8 or 16). -/
def isRadixDigit (b : Nat) (c : Char) : Bool :=
  (c.isDigit ∨ ('a' ≤ c ∧ c ≤ 'f') ∨ ('A' ≤ c ∧ c ≤ 'F')) ∧ hexDigitVal c < b

/-- Decimal value of a digit string. -/
def decDigitsVal (ds : List Char) : Nat :=
  ds.foldl (fun a c => a * 10 + (c.toNat - 48)) 0

/-- Parse the optional exponent part of a StrDecimalLiteral: empty means
exponent 0; otherwise `e`/`E`, an optional sign, and at least one digit,
consuming the whole remainder. -/
def parseExponentPart (l : List Char) : Option Int :=
  match l with
  | [] => some 0
  | c :: r =>
    if c = 'e' ∨ c = 'E' then
      match r with
      | '+' :: ds =>
        if ¬ ds.isEmpty ∧ ds.all Char.isDigit then some (decDigitsVal ds) else none
      | '-' :: ds =>
        if ¬ ds.isEmpty ∧ ds.all Char.isDigit then some (-(decDigitsVal ds : Int)) else none
      | ds =>
        if ¬ ds.isEmpty ∧ ds.all Char.isDigit then some (decDigitsVal ds) else none
    else none

/-- Exact value of the decimal literal `ip . fp × 10^e`: the digit string
`ip ++ fp` read as an integer mantissa, scaled by `10 ^ (e - |fp|)`,
expressed over a power-of-ten denominator. -/
def decValue (ip fp : List Char) (e : Int) : ℚ :=
  let m : Nat := decDigitsVal (ip ++ fp)
  let E : Int := e - fp.length
  if 0 ≤ E then mkRat (m * 10 ^ E.toNat) 1 else mkRat m (10 ^ (-E).toNat)

/-- Parse an ECMA-262 StrUnsignedDecimalLiteral: `Infinity`, digits with an
optional fraction and exponent, or a leading-dot fraction with exponent. -/
def parseUnsignedDec (l : List Char) : JsNum :=
  if l = "Infinity".toList then .inf false
  else
    let ip := l.takeWhile Char.isDigit
    let rest1 := l.dropWhile Char.isDigit
    match rest1 with
    | '.' :: rest2 =>
      let fp := rest2.takeWhile Char.isDigit
      let rest3 := rest2.dropWhile Char.isDigit
      if ip.isEmpty ∧ fp.isEmpty then .nan
      else
        match parseExponentPart rest3 with
        | none => .nan
        | some e => .num (decValue ip fp e)
    | _ =>
      if ip.isEmpty then .nan
      else
        match parseExponentPart rest1 with
        | none => .nan
        | some e => .num (decValue ip [] e)

/-- JS unary negation on numbers (NaN stays NaN). -/
def jsNegate : JsNum → JsNum
  | .nan => .nan
  | .inf b => .inf (!b)
  | .num q => .num (-q)

/-- Parse an ECMA-262 StrDecimalLiteral: optional sign, then an unsigned
decimal literal. -/
def parseSignedDec : List Char → JsNum
  | '+' :: r => parseUnsignedDec r
  | '-' :: r => jsNegate (parseUnsignedDec r)
  | l => parseUnsignedDec l

/-- Parse a radix-prefixed integer literal body (after `0x`/`0o`/`0b`):
at least one digit of the radix, nothing else. -/
def parseRadix (b : Nat) (ds : List Char) : JsNum :=
  if ¬ ds.isEmpty ∧ ds.all (isRadixDigit b) then
    .num ((ds.foldl (fun a c => a * b + hexDigitVal c) 0 : Nat) : ℚ)
  else .nan

/-- The JS `Number` builtin applied to a string (ECMA-262 ToNumber): trim
white space from both ends; empty means 0; a `0x`/`0o`/`0b` prefix starts an
unsigned radix integer literal; anything else must be a signed decimal
literal (digits, optional fraction, optional exponent, or `Infinity`);
any other string yields NaN.  Finite results are the exact rational value of
the literal (see `JsNum` for the binary64 rounding caveat). -/
def jsNumberOfString (s : String) : JsNum :=
  match ((s.toList.dropWhile jsIsWhiteSpace).reverse.dropWhile jsIsWhiteSpace).reverse with
  | [] => .num 0
  | '0' :: c :: rest =>
    if c = 'x' ∨ c = 'X' then parseRadix 16 rest
    else if c = 'o' ∨ c = 'O' then parseRadix 8 rest
    else if c = 'b' ∨ c = 'B' then parseRadix 2 rest
    else parseSignedDec ('0' :: c :: rest)
  | t => parseSignedDec t

/-- `Number(limitEl.value || 20)` (src/app.js:169): an empty (falsy) control
value short-circuits to the number literal `20`; any nonempty value is fed
to `Number`. -/
def buildLimit (value : String) : JsNum :=
  if value = "" then .num 20 else jsNumberOfString value

/-- One request issued by `runAnalysis` to `/api/analyze`. -/
structure Request where
  limit : JsNum
  category : String
  force : Bool
deriving DecidableEq, Repr

/-- Display of a JS number in a template literal. -/
def jsNumToString : JsNum → String
  | .nan => "NaN"
  | .inf b => if b then "-Infinity" else "Infinity"
  | .num q => toString q

/-- The request URL built by `runAnalysis` (src/app.js:174-176):
`` `/api/analyze?limit=${limit}&category=${encodeURIComponent(selectedCategory)}${refreshParam}` ``
with `refreshParam = forceRefresh ? "&refresh=true" : ""`.  `enc` stands for
the external `encodeURIComponent` builtin. -/
def buildUrl (enc : String → String) (r : Request) : String :=
  "/api/analyze?limit=" ++ jsNumToString r.limit ++ "&category=" ++ enc r.category ++
    (if r.force then "&refresh=true" else "")

/-- One raw result item as delivered inside a successfully parsed JSON
payload: every field may be absent (`undefined` to the renderers), which is
what a well-formed-JSON payload of the wrong shape looks like.  Present
fields carry the typed value. -/
structure RawResult where
  trend : Option TrendRef
  verdict : Option String
  fake_probability : Option ℚ
  spread_index : Option ℚ
  credibility_score : Option ℚ
  reasons : Option (List String)
  evidence : Option EvidenceSummary
deriving DecidableEq, Repr

/-- The parsed response payload consumed by `runAnalysis`; `results` and
`source_health` may be absent (`data.results || []`,
`data.source_health || {}`), and present result items may have any shape
(`RawResult`). -/
structure AnalysisBatch where
  results : Option (List RawResult)
  source_health : Option (List (String × String))
  generated_at : String
deriving DecidableEq, Repr

/-- How one refresh cycle settles before rendering starts: the three failure
classes of the `try` of `runAnalysis` that are raised before any renderer
runs (fetch rejection, `!response.ok`, `response.json()` rejecting because
the body is not valid JSON), or a parsed payload.  A body that is valid
JSON but has the wrong shape is NOT one of these: it arrives as `success`
with missing fields inside the `RawResult`s and fails later, inside the
renderers. -/
inductive FetchOutcome
  | networkError (msg : String)
  | httpError (code : Nat)
  | parseError (msg : String)
  | success (payload : AnalysisBatch)
deriving DecidableEq, Repr

/-- True on the three outcomes that reach the `catch` block before any
renderer has run. -/
def isFailure : FetchOutcome → Bool
  | .success _ => false
  | _ => true

/-- The `error.message` string seen by the `catch` block for a pre-render
failure: the raw message for fetch/JSON-syntax rejections,
`` `HTTP ${response.status}` `` for a non-ok response. -/
def failureMessage : FetchOutcome → String
  | .networkError m => m
  | .httpError code => "HTTP " ++ toString code
  | .parseError m => m
  | .success _ => ""

/-- The dashboard summary as computed over raw items: the counts are exact,
and the average is a JS number that is NaN whenever some item lacks
`fake_probability` (adding `undefined` poisons the `reduce` sum). -/
structure DashboardSummaryDyn where
  total : Nat
  misleading_count : Nat
  real_count : Nat
  avg_fake_probability : JsNum
deriving DecidableEq, Repr

/-- A possibly-missing numeric field used in arithmetic: `undefined` behaves
as NaN under JS `+`. -/
def optNum : Option ℚ → JsNum
  | some q => .num q
  | none => .nan

/-- JS binary `+` on numbers. -/
def jsAdd : JsNum → JsNum → JsNum
  | .nan, _ => .nan
  | _, .nan => .nan
  | .inf b, .inf b2 => if b = b2 then .inf b else .nan
  | .inf b, .num _ => .inf b
  | .num _, .inf b => .inf b
  | .num a, .num b => .num (a + b)

/-- JS division of a number by a positive count (only used with a nonzero
`total`). -/
def jsDivNat : JsNum → Nat → JsNum
  | .nan, _ => .nan
  | .inf b, _ => .inf b
  | .num q, n => .num (q / n)

/-- `renderSummary` (src/app.js:82-92) over raw items: property access on an
object never throws, a missing `verdict` compares unequal to the verdict
strings, and a missing `fake_probability` turns the `reduce` sum (and hence
the average) into NaN; the `total === 0` guard still yields 0.  This
renderer always completes and writes the summary DOM. -/
def renderSummaryDyn (results : List RawResult) : DashboardSummaryDyn :=
  ⟨results.length,
   (results.filter (fun r => r.verdict = some "Likely Misleading")).length,
   (results.filter (fun r => r.verdict = some "Likely Real")).length,
   if results.length = 0 then .num 0
   else jsDivNat (results.foldl (fun sum r => jsAdd sum (optNum r.fake_probability)) (.num 0))
     results.length⟩

/-- Grouping key of a raw item; only evaluated by `renderCardsDyn` after the
whole batch passed the `trend`-presence check (the grouping loop at
src/app.js:141 throws on the first item with no `trend`), so the `none`
branch is unreachable there and its value is a dummy. -/
def rawAssignedCategory (item : RawResult) : String :=
  match item.trend with
  | some tr => if tr.category = "" then "trending" else tr.category
  | none => ""

/-- `buildCard` (src/app.js:94-136) on a raw item: returns the first
TypeError raised by accessing a property of an `undefined` field, in the
order the fields are dereferenced (`trend.platform`, then
`fake_probability.toFixed`, `spread_index.toFixed`,
`credibility_score.toFixed`, `evidence.credible_hits`, `reasons.forEach`),
or `none` when the card renders.  The message texts follow the V8 wording. -/
def buildCard (item : RawResult) : Option String :=
  match item.trend with
  | none => some "Cannot read properties of undefined (reading 'platform')"
  | some _ =>
    match item.fake_probability with
    | none => some "Cannot read properties of undefined (reading 'toFixed')"
    | some _ =>
      match item.spread_index with
      | none => some "Cannot read properties of undefined (reading 'toFixed')"
      | some _ =>
        match item.credibility_score with
        | none => some "Cannot read properties of undefined (reading 'toFixed')"
        | some _ =>
          match item.evidence with
          | none => some "Cannot read properties of undefined (reading 'credible_hits')"
          | some _ =>
            match item.reasons with
            | none => some "Cannot read properties of undefined (reading 'forEach')"
            | some _ => none

/-- One flat card-append loop: each successfully built card is appended
before the next is attempted, so a throw keeps the cards already appended
and reports the error. -/
def buildCardsFlat : List RawResult → List RawResult × Option String
  | [] => ([], none)
  | item :: rest =>
    match buildCard item with
    | some e => ([], some e)
    | none =>
      match buildCardsFlat rest with
      | (cs, err) => (item :: cs, err)

/-- The section loop of the "all" branch (src/app.js:148-159): sections are
appended one by one; a section whose card loop throws is never appended (it
is discarded whole, with the cards built so far), and the loop stops. -/
def buildSections (results : List RawResult) :
    List Category → List (String × String × List RawResult) × Option String
  | [] => ([], none)
  | c :: cs =>
    let items := results.filter (fun r => rawAssignedCategory r = c.id)
    if items.isEmpty then buildSections results cs
    else
      match buildCardsFlat items with
      | (_, some e) => ([], some e)
      | (cards, none) =>
        match buildSections results cs with
        | (secs, err) => ((c.id, c.label, cards) :: secs, err)

/-- The cards DOM after a render pass over raw items: category sections in
"all" mode, a flat card list otherwise. -/
inductive RenderedCards
  | grouped (sections : List (String × String × List RawResult))
  | flat (cards : List RawResult)
deriving DecidableEq, Repr

/-- `renderCards` (src/app.js:138-166) over raw items.  `clearResults()` has
already run by the time anything can throw, so the returned cards replace
the previous ones even on error.  In "all" mode the grouping loop throws on
the first item with no `trend` (before any section is appended); otherwise
the sections are appended until a card throws.  In single-category mode
cards are appended one by one until a card throws. -/
def renderCardsDyn (selectedCategory : String) (results : List RawResult) :
    RenderedCards × Option String :=
  if selectedCategory = "all" then
    if results.all (fun r => r.trend.isSome) then
      match buildSections results (CATEGORIES.filter (fun c => c.id ≠ "all")) with
      | (secs, err) => (.grouped secs, err)
    else (.grouped [], some "Cannot read properties of undefined (reading 'category')")
  else
    match buildCardsFlat results with
    | (cs, err) => (.flat cs, err)

/-- The rendered view: the DOM surfaces written by the renderers and
`setStatus`, plus the refresh button's `disabled` flag. -/
structure ViewModel where
  summary : DashboardSummaryDyn
  healthPills : List Pill
  cards : RenderedCards
  statusLine : String
  statusIsError : Bool
  refreshDisabled : Bool
deriving DecidableEq, Repr

/-- One settled refresh cycle of `runAnalysis` (src/app.js:168-190), as a
transformation of the view.  `fmt` stands for the external
`new Date(x).toLocaleString()` formatting.  The in-flight status line and
`refreshBtn.disabled = true` are written first.  On a pre-render failure
only the status line is written.  On a parsed payload the renderers run in
source order: the summary and the health pills are written unconditionally,
then `renderCards` clears the card area and rebuilds it; if a card render
throws, the summary and pills stay rewritten, the partially rebuilt cards
stay, and the `catch` writes the failure status.  The `finally` block
re-enables the button either way. -/
def runAnalysisStep (fmt : String → String) (st : ViewModel) (selectedCategory : String)
    (outcome : FetchOutcome) : ViewModel :=
  let st1 : ViewModel :=
    { st with
      statusLine := "Analyzing " ++ categoryLabel selectedCategory ++ " trends...",
      statusIsError := false,
      refreshDisabled := true }
  let st2 : ViewModel :=
    match outcome with
    | .success data =>
        let newSummary := renderSummaryDyn (data.results.getD [])
        let newPills := renderSourceHealth (data.source_health.getD [])
        match renderCardsDyn selectedCategory (data.results.getD []) with
        | (cards, none) =>
            { st1 with
              summary := newSummary, healthPills := newPills, cards := cards,
              statusLine := "Updated at " ++ fmt data.generated_at ++ ".",
              statusIsError := false }
        | (cards, some msg) =>
            { st1 with
              summary := newSummary, healthPills := newPills, cards := cards,
              statusLine := "Failed to load analysis: " ++ msg,
              statusIsError := true }
    | e =>
        { st1 with
          statusLine := "Failed to load analysis: " ++ failureMessage e,
          statusIsError := true }
  { st2 with refreshDisabled := false }

/-- Event-level controller state: the selected category, the refresh button's
`disabled` flag, the number of fetches in flight, and the log of issued
requests. -/
structure AppState where
  selectedCategory : String
  refreshDisabled : Bool
  inFlight : Nat
  requests : List Request
deriving DecidableEq, Repr

/-- User-visible events: a click on the refresh button, a click on a category
tab, and the settling (success or failure) of one in-flight request. -/
inductive UiEvent
  | clickRefresh
  | clickTab (c : String)
  | settle
deriving DecidableEq, Repr

/-- True exactly on category-tab click events. -/
def isTabEvent : UiEvent → Bool
  | .clickTab _ => true
  | _ => false

/-- The entry of `runAnalysis` up to the `fetch` call: reads the limit
control, disables the refresh button, and issues the request. -/
def issueRequest (limitValue : String) (force : Bool) (s : AppState) : AppState :=
  { s with
    refreshDisabled := true,
    inFlight := s.inFlight + 1,
    requests := s.requests ++ [⟨buildLimit limitValue, s.selectedCategory, force⟩] }

/-- Event semantics of `src/app.js`: the refresh button calls
`runAnalysis(true)` but, being a disabled DOM button while
`refreshBtn.disabled` is set, delivers no click mid-flight; a category tab
(src/app.js:55-69) sets `selectedCategory` and calls `runAnalysis(true)`
unconditionally — tabs are never disabled; the `finally` block of a
settling request re-enables the button. -/
def uiStep (limitValue : String) (s : AppState) : UiEvent → AppState
  | .clickRefresh =>
      if s.refreshDisabled then s else issueRequest limitValue true s
  | .clickTab c =>
      issueRequest limitValue true { s with selectedCategory := c }
  | .settle =>
      if s.inFlight = 0 then s
      else { s with inFlight := s.inFlight - 1, refreshDisabled := false }

/-- Page load (src/app.js:192-194): `selectedCategory` starts as `"all"` and
`runAnalysis(false)` issues the initial request. -/
def initAppState (limitValue : String) : AppState :=
  issueRequest limitValue false ⟨"all", false, 0, []⟩

/-- Sample evidence record for concrete witnesses. -/
def sampleEvidence : EvidenceSummary := ⟨0, 0, 0, []⟩

/-- Concrete analysis result with the given category, verdict and fake
probability, for witnesses and counterexamples. -/
def mkResult (cat verdict : String) (fp : ℚ) : AnalysisResult :=
  ⟨⟨"x", "t", "u", cat⟩, verdict, fp, 0, 0, [], sampleEvidence⟩

/-- Sample fully-shaped raw card for concrete witnesses. -/
def sampleRawCard : RawResult :=
  ⟨some ⟨"x", "t", "u", "sports"⟩, some "Likely Real", some 10, some 0, some 0,
   some [], some sampleEvidence⟩

/-- Sample raw item of the wrong shape: no `trend`. -/
def malformedItem : RawResult := ⟨none, some "x", some 5, none, none, none, none⟩

/-- Sample well-formed-JSON, wrong-shape payload. -/
def malformedBatch : AnalysisBatch := ⟨some [malformedItem], none, "now"⟩

/-- Sample previously rendered view for concrete witnesses and
counterexamples. -/
def sampleView : ViewModel :=
  ⟨⟨2, 1, 1, .num 30⟩, [⟨"rss: ok", true⟩], .flat [sampleRawCard],
   "Updated at now.", false, false⟩

/-- Helper: the left fold of `reduce((sum, r) => sum + r.fake_probability, 0)`
is the sum of the mapped list. -/
theorem foldl_add_fake (l : List AnalysisResult) :
    l.foldl (fun sum r => sum + r.fake_probability) 0
      = (l.map (fun r => r.fake_probability)).sum := by
  have key : ∀ (l : List AnalysisResult) (a : ℚ),
      l.foldl (fun sum r => sum + r.fake_probability) a
        = a + (l.map (fun r => r.fake_probability)).sum := by
    intro l
    induction l with
    | nil => intro a; simp
    | cons x xs ih => intro a; simp [ih, add_assoc]
  simpa using key l 0

/-- C3: `renderSummary` on the empty list yields all-zero summary fields; the
`total === 0` guard makes the average 0 instead of dividing by zero. -/
theorem summarize_empty : renderSummary [] = ⟨0, 0, 0, 0⟩ := by decide

/-- C4: `renderSummary` is invariant under permutation of its input. -/
theorem summarize_perm_invariant (l l' : List AnalysisResult) (h : List.Perm l l') :
    renderSummary l = renderSummary l' := by
  have hlen : l.length = l'.length := h.length_eq
  have hm : (l.filter (fun r => r.verdict = "Likely Misleading")).length
      = (l'.filter (fun r => r.verdict = "Likely Misleading")).length :=
    (h.filter _).length_eq
  have hre : (l.filter (fun r => r.verdict = "Likely Real")).length
      = (l'.filter (fun r => r.verdict = "Likely Real")).length :=
    (h.filter _).length_eq
  have hs : (l.map (fun r => r.fake_probability)).sum
      = (l'.map (fun r => r.fake_probability)).sum := (h.map _).sum_eq
  simp only [renderSummary, foldl_add_fake, hlen, hm, hre, hs]

/-- Witness for C4 at a concrete two-element swap. -/
theorem summarize_perm_invariant_witness :
    renderSummary [mkResult "a" "Likely Misleading" 10, mkResult "b" "Likely Real" 90]
      = renderSummary [mkResult "b" "Likely Real" 90, mkResult "a" "Likely Misleading" 10] :=
  summarize_perm_invariant _ _ (List.Perm.swap _ _ _)

/-- C5: for any selected category other than "all", `renderCards` hands the
input sequence to the DOM flat, unfiltered and in input order. -/
theorem single_category_flat (c : String) (hc : c ≠ "all") (results : List AnalysisResult) :
    renderCards c results = RenderOutput.flat results := by
  simp [renderCards, hc]

/-- Witness for C5 at the "sports" selection. -/
theorem single_category_flat_witness :
    renderCards "sports" [mkResult "sports" "Likely Real" 10]
      = RenderOutput.flat [mkResult "sports" "Likely Real" 10] :=
  single_category_flat "sports" (by decide) _

/-- C9 counterexample: a nonempty non-numeric limit control value yields a
request whose limit is `NaN`, not the default 20. -/
theorem limit_nan_counterexample :
    buildLimit "abc" = JsNum.nan ∧ JsNum.nan ≠ JsNum.num 20 ∧
    (initAppState "abc").requests.map Request.limit = [JsNum.nan] := by decide

/-- C9 amended: the default 20 applies only to the empty (falsy) control
value; any nonempty value is handed to the `Number` coercion with no 20
fallback, so numeric strings yield their numeric value and non-numeric
strings yield `NaN`.  Concrete probes: `"20"` and `"12.5"` coerce to their
values, `"abc"` to NaN. -/
theorem limit_amended (v : String) :
    ((v = "" → buildLimit v = JsNum.num 20)
  ∧ (v ≠ "" → buildLimit v = jsNumberOfString v))
  ∧ buildLimit "20" = JsNum.num 20
  ∧ buildLimit "12.5" = JsNum.num (25 / 2)
  ∧ buildLimit "abc" = JsNum.nan := by
  refine ⟨⟨fun h => by simp [buildLimit, h], fun h => by simp [buildLimit, h]⟩,
    by decide, ?_, by decide⟩
  have h : buildLimit "12.5" = JsNum.num (mkRat 125 10) := by decide
  rw [h]
  norm_num [Rat.mkRat_eq_div]

/-- Witness for C9 amended at the empty and a non-numeric value. -/
theorem limit_amended_witness :
    buildLimit "" = JsNum.num 20 ∧ buildLimit "abc" = jsNumberOfString "abc" :=
  ⟨(limit_amended "").1.1 rfl, (limit_amended "abc").1.2 (by decide)⟩

/-- C8 counterexample: with the page-load request still in flight, a
category-tab click issues a second concurrent request. -/
theorem concurrent_request_counterexample :
    (initAppState "20").inFlight = 1 ∧
    (uiStep "20" (initAppState "20") (UiEvent.clickTab "sports")).inFlight = 2 := by decide

/-- C1 counterexample: an item with an unrecognized nonempty category is a
member of the input but of no output group — the "all" view drops it
instead of routing it to "trending". -/
theorem partition_counterexample :
    (mkResult "foo" "Likely Real" 10) ∈ [mkResult "foo" "Likely Real" 10] ∧
    partitionAllGroups [mkResult "foo" "Likely Real" 10] = [] := by decide

/-- C2 counterexample: `replace("_", " ")` replaces only the first
underscore, so a source name with two underscores keeps the second one. -/
theorem health_pill_counterexample :
    renderSourceHealth [("news_api_v2", "ok - cached")]
      = [⟨"news api_v2: ok - cached", true⟩] ∧
    "news api_v2: ok - cached" ≠ "news api v2: ok - cached" := by decide

/-- C7 counterexample: a well-formed-JSON payload of the wrong shape (one
result item with no `trend`) makes the refresh cycle fail — the status line
shows the failure — yet the previously rendered view does NOT survive: the
summary is rewritten, the health pills are cleared, and the cards are
cleared, contradicting "the previously rendered summary, cards, and health
pills remain unchanged" and "no partial rendering from a malformed
payload". -/
theorem partial_render_counterexample :
    ((runAnalysisStep id sampleView "all" (FetchOutcome.success malformedBatch)).statusIsError
      = true)
  ∧ ((runAnalysisStep id sampleView "all" (FetchOutcome.success malformedBatch)).statusLine
      = "Failed to load analysis: Cannot read properties of undefined (reading 'category')")
  ∧ ((runAnalysisStep id sampleView "all" (FetchOutcome.success malformedBatch)).summary.total
      ≠ sampleView.summary.total)
  ∧ ((runAnalysisStep id sampleView "all" (FetchOutcome.success malformedBatch)).healthPills
      ≠ sampleView.healthPills)
  ∧ ((runAnalysisStep id sampleView "all" (FetchOutcome.success malformedBatch)).cards
      ≠ sampleView.cards) := by decide

/-- C7 amended: for the failures detected before rendering — network error,
non-success status code, JSON-syntax parse failure — the previously
rendered summary, health pills and cards are untouched and only the status
line changes, to "Failed to load analysis: <message>", with the button
re-enabled; but when a parsed payload makes the card renderer throw, the
cycle still ends in the failure status while the summary and pills have
been rewritten from the payload and the card area holds whatever was
rebuilt before the throw. -/
theorem error_preserves_view (fmt : String → String) (st : ViewModel) (selected : String)
    (o : FetchOutcome) :
    (isFailure o = true →
      (runAnalysisStep fmt st selected o).summary = st.summary ∧
      (runAnalysisStep fmt st selected o).healthPills = st.healthPills ∧
      (runAnalysisStep fmt st selected o).cards = st.cards ∧
      (runAnalysisStep fmt st selected o).statusLine
        = "Failed to load analysis: " ++ failureMessage o ∧
      (runAnalysisStep fmt st selected o).statusIsError = true ∧
      (runAnalysisStep fmt st selected o).refreshDisabled = false)
  ∧ (∀ data cards msg, o = FetchOutcome.success data →
      renderCardsDyn selected (data.results.getD []) = (cards, some msg) →
      (runAnalysisStep fmt st selected o).summary = renderSummaryDyn (data.results.getD []) ∧
      (runAnalysisStep fmt st selected o).healthPills
        = renderSourceHealth (data.source_health.getD []) ∧
      (runAnalysisStep fmt st selected o).cards = cards ∧
      (runAnalysisStep fmt st selected o).statusLine = "Failed to load analysis: " ++ msg ∧
      (runAnalysisStep fmt st selected o).statusIsError = true ∧
      (runAnalysisStep fmt st selected o).refreshDisabled = false) := by
  constructor
  · intro h
    cases o with
    | success p => simp [isFailure] at h
    | networkError m => simp [runAnalysisStep, failureMessage]
    | httpError c => simp [runAnalysisStep, failureMessage]
    | parseError m => simp [runAnalysisStep, failureMessage]
  · intro data cards msg ho hc
    subst ho
    simp [runAnalysisStep, hc]

/-- Witness for C7 amended at a concrete HTTP 500 failure over a concrete
view. -/
theorem error_preserves_view_witness :
    isFailure (FetchOutcome.httpError 500) = true ∧
    (runAnalysisStep id sampleView "all" (FetchOutcome.httpError 500)).summary
      = sampleView.summary ∧
    (runAnalysisStep id sampleView "all" (FetchOutcome.httpError 500)).statusLine
      = "Failed to load analysis: " ++ failureMessage (FetchOutcome.httpError 500) := by
  have h := (error_preserves_view id sampleView "all" (FetchOutcome.httpError 500)).1 (by decide)
  exact ⟨by decide, h.1, h.2.2.2.1⟩

/-- Helper: `strContains` decides substring containment (`List.IsInfix`). -/
theorem strContains_iff (needle hay : List Char) :
    strContains needle hay = true ↔ needle <:+: hay := by
  induction hay with
  | nil => simp [strContains, List.isEmpty_iff]
  | cons c t ih => simp [strContains, List.isPrefixOf_iff_prefix, ih, List.infix_cons_iff]

/-- Helper: the health flag holds exactly when the status string starts with
"ok" or contains "fallback". -/
theorem okFlag_iff (status : String) :
    okFlag status = true ↔
      ("ok".toList <+: status.toList ∨ "fallback".toList <:+: status.toList) := by
  simp [okFlag, List.isPrefixOf_iff_prefix, strContains_iff]

/-- C2 amended: the pill at position i of the health summary carries the
source name with its FIRST underscore replaced by a space, joined as
"name: status" with the raw status, and its ok flag holds exactly when the
status starts with "ok" or contains "fallback". -/
theorem health_pill_amended (health : List (String × String)) (i : Nat) (src status : String)
    (h : health[i]? = some (src, status)) :
    (renderSourceHealth health)[i]?
      = some ⟨String.mk (replaceFirstUnderscore src.toList) ++ ": " ++ status, okFlag status⟩
  ∧ (okFlag status = true ↔
      ("ok".toList <+: status.toList ∨ "fallback".toList <:+: status.toList)) := by
  constructor
  · simp [renderSourceHealth, List.getElem?_map, h]
  · exact okFlag_iff status

/-- Witness for C2 amended at the spec's own example mapping. -/
theorem health_pill_amended_witness :
    ((renderSourceHealth [("twitter_api", "ok - cached")])[0]?
      = some ⟨String.mk (replaceFirstUnderscore "twitter_api".toList) ++ ": " ++ "ok - cached",
              okFlag "ok - cached"⟩)
    ∧ String.mk (replaceFirstUnderscore "twitter_api".toList) ++ ": " ++ "ok - cached"
        = "twitter api: ok - cached"
    ∧ okFlag "ok - cached" = true :=
  ⟨(health_pill_amended [("twitter_api", "ok - cached")] 0 "twitter_api" "ok - cached" rfl).1,
   by decide, by decide⟩

/-- Helper: one event preserves the refresh-button serialization invariant on
traces without tab clicks: at most one request in flight, and an enabled
button means none in flight. -/
theorem inflight_inv_aux (lv : String) (evs : List UiEvent) :
    ∀ s : AppState, (∀ e ∈ evs, isTabEvent e = false) →
      s.inFlight ≤ 1 → (s.refreshDisabled = false → s.inFlight = 0) →
      (evs.foldl (uiStep lv) s).inFlight ≤ 1 := by
  induction evs with
  | nil => intro s _ h1 _; simpa using h1
  | cons e evs ih =>
    intro s hall h1 h2
    simp only [List.foldl_cons]
    have he : isTabEvent e = false := hall e (List.mem_cons_self e evs)
    have hall' : ∀ x ∈ evs, isTabEvent x = false :=
      fun x hx => hall x (List.mem_cons_of_mem e hx)
    cases e with
    | clickTab c => simp [isTabEvent] at he
    | clickRefresh =>
      by_cases hd : s.refreshDisabled
      · have hs : uiStep lv s UiEvent.clickRefresh = s := by simp [uiStep, hd]
        rw [hs]; exact ih s hall' h1 h2
      · have hz : s.inFlight = 0 := h2 (Bool.not_eq_true _ ▸ Bool.of_not_eq_true hd)
        have hs : uiStep lv s UiEvent.clickRefresh = issueRequest lv true s := by
          simp [uiStep, hd]
        rw [hs]
        refine ih _ hall' ?_ ?_
        · simp [issueRequest, hz]
        · intro hfalse; simp [issueRequest] at hfalse
    | settle =>
      by_cases h0 : s.inFlight = 0
      · have hs : uiStep lv s UiEvent.settle = s := by simp [uiStep, h0]
        rw [hs]; exact ih s hall' h1 h2
      · have hs : uiStep lv s UiEvent.settle
            = { s with inFlight := s.inFlight - 1, refreshDisabled := false } := by
          simp [uiStep, h0]
        rw [hs]
        refine ih _ hall' ?_ ?_
        · simp; omega
        · intro _; simp; omega

/-- C8 amended: a refresh-button click is inert while the button is disabled
(as it is for the whole in-flight window), and along any event trace that
contains no category-tab click the number of in-flight requests never
exceeds one; the counterexample shows tab clicks break this. -/
theorem refresh_trigger_amended (lv : String) :
    (∀ s : AppState, s.refreshDisabled = true → uiStep lv s UiEvent.clickRefresh = s)
  ∧ (∀ evs : List UiEvent, (∀ e ∈ evs, isTabEvent e = false) →
      (evs.foldl (uiStep lv) (initAppState lv)).inFlight ≤ 1) := by
  constructor
  · intro s h; simp [uiStep, h]
  · intro evs hall
    refine inflight_inv_aux lv evs (initAppState lv) hall ?_ ?_
    · simp [initAppState, issueRequest]
    · intro h; simp [initAppState, issueRequest] at h

/-- Witness for C8 amended on a concrete button-only trace. -/
theorem refresh_trigger_amended_witness :
    ([UiEvent.clickRefresh, UiEvent.settle, UiEvent.clickRefresh].foldl
      (uiStep "20") (initAppState "20")).inFlight ≤ 1 :=
  (refresh_trigger_amended "20").2 _ (by decide)

/-- Helper: any single event either leaves the request log unchanged or
appends exactly one forced (`refresh=true`) request. -/
theorem uiStep_requests_aux (lv : String) (s : AppState) (e : UiEvent) :
    (uiStep lv s e).requests = s.requests ∨
    ∃ req : Request, req.force = true ∧ (uiStep lv s e).requests = s.requests ++ [req] := by
  cases e with
  | clickRefresh =>
    by_cases hd : s.refreshDisabled
    · left; simp [uiStep, hd]
    · right; exact ⟨⟨buildLimit lv, s.selectedCategory, true⟩, rfl, by simp [uiStep, hd, issueRequest]⟩
  | clickTab c =>
    right; exact ⟨⟨buildLimit lv, c, true⟩, rfl, by simp [uiStep, issueRequest]⟩
  | settle =>
    left; by_cases h0 : s.inFlight = 0 <;> simp [uiStep, h0]

/-- Helper: along any trace, the request log keeps its head and every
appended request is forced. -/
theorem requests_log_aux (lv : String) (evs : List UiEvent) :
    ∀ (s : AppState) (r0 : Request) (rest : List Request),
      s.requests = r0 :: rest → (∀ r ∈ rest, r.force = true) →
      ∃ rest2, (evs.foldl (uiStep lv) s).requests = r0 :: rest2 ∧
        ∀ r ∈ rest2, r.force = true := by
  induction evs with
  | nil => exact fun s r0 rest h hall => ⟨rest, h, hall⟩
  | cons e evs ih =>
    intro s r0 rest h hall
    simp only [List.foldl_cons]
    rcases uiStep_requests_aux lv s e with heq | ⟨req, hf, heq⟩
    · exact ih _ r0 rest (heq.trans h) hall
    · refine ih _ r0 (rest ++ [req]) ?_ ?_
      · rw [heq, h]; simp
      · intro r hr
        rcases List.mem_append.mp hr with h1 | h2
        · exact hall r h1
        · rw [List.mem_singleton.mp h2]; exact hf

/-- C10: a category-tab click issues exactly one new request, forced
(`refresh=true`); along every event trace the request log starts with the
unforced page-load request and every later request is forced; and a forced
request's URL carries "&refresh=true" appended. -/
theorem tab_requests_forced (lv : String) :
    (∀ (s : AppState) (c : String),
        (uiStep lv s (UiEvent.clickTab c)).requests
          = s.requests ++ [⟨buildLimit lv, c, true⟩])
  ∧ (∀ evs : List UiEvent, ∃ rest : List Request,
        (evs.foldl (uiStep lv) (initAppState lv)).requests
            = ⟨buildLimit lv, "all", false⟩ :: rest
        ∧ ∀ r ∈ rest, r.force = true)
  ∧ (∀ (enc : String → String) (r : Request), r.force = true →
        buildUrl enc r
          = ("/api/analyze?limit=" ++ jsNumToString r.limit ++ "&category="
              ++ enc r.category) ++ "&refresh=true") := by
  refine ⟨?_, ?_, ?_⟩
  · intro s c; simp [uiStep, issueRequest]
  · intro evs
    exact requests_log_aux lv evs (initAppState lv) ⟨buildLimit lv, "all", false⟩ []
      (by simp [initAppState, issueRequest]) (by intro r hr; simp at hr)
  · intro enc r hf; simp [buildUrl, hf]

/-- Witness for C10: the URL of a concrete forced request ends in the
cache-bypass flag. -/
theorem tab_requests_forced_witness :
    buildUrl id ⟨JsNum.num 20, "sports", true⟩
      = ("/api/analyze?limit=" ++ jsNumToString (JsNum.num 20) ++ "&category="
          ++ id "sports") ++ "&refresh=true" :=
  (tab_requests_forced "20").2.2 id ⟨JsNum.num 20, "sports", true⟩ rfl

/-- Helper: distinct entries of the `CATEGORIES` table have distinct ids. -/
theorem categories_id_inj :
    ∀ c1 ∈ CATEGORIES, ∀ c2 ∈ CATEGORIES, c1.id = c2.id → c1 = c2 := by decide

/-- Helper: the known category ids contain no duplicate. -/
theorem knownIds_nodup : knownIds.Nodup := by decide

/-- Helper: `isEmpty` depends only on the length. -/
theorem isEmpty_eq_of_length_eq {α β : Type} (l : List α) (l' : List β)
    (h : l.length = l'.length) : l.isEmpty = l'.isEmpty := by
  cases l <;> cases l' <;> simp_all

/-- Helper: a group is emitted by the "all" view exactly when it is the
nonempty filter of the input at some known category other than "all". -/
theorem mem_partitionAllGroups (results : List AnalysisResult) (g : CategoryGroup) :
    g ∈ partitionAllGroups results ↔
      ∃ c, c ∈ CATEGORIES.filter (fun c => c.id ≠ "all") ∧
        g = ⟨c.id, c.label, results.filter (fun r => assignedCategory r = c.id)⟩ ∧
        results.filter (fun r => assignedCategory r = c.id) ≠ [] := by
  simp only [partitionAllGroups, List.mem_filterMap]
  constructor
  · rintro ⟨c, hc, hg⟩
    by_cases he : (results.filter (fun r => assignedCategory r = c.id)).isEmpty
    · simp [he] at hg
    · refine ⟨c, hc, ?_, by simpa [List.isEmpty_iff] using he⟩
      simp [he] at hg
      exact hg.symm
  · rintro ⟨c, hc, hg, hne⟩
    refine ⟨c, hc, ?_⟩
    have he : (results.filter (fun r => assignedCategory r = c.id)).isEmpty = false := by
      simpa [List.isEmpty_iff] using hne
    simp [he, hg]

/-- Helper: the emitted group ids are the known ids whose filter is
nonempty, in table order. -/
theorem map_categoryId_partition (results : List AnalysisResult) :
    (partitionAllGroups results).map CategoryGroup.category_id
      = (CATEGORIES.filter (fun c => c.id ≠ "all")).filterMap (fun c =>
          if (results.filter (fun r => assignedCategory r = c.id)).isEmpty then none
          else some c.id) := by
  rw [partitionAllGroups, List.map_filterMap]
  congr 1
  funext c
  by_cases he : (results.filter (fun r => assignedCategory r = c.id)).isEmpty <;> simp [he]

/-- Helper: a skip-or-keep filterMap projects to a sublist of the map. -/
theorem filterMap_if_sublist {α β : Type} (g : α → β) (P : α → Bool) :
    ∀ l : List α,
      List.Sublist (l.filterMap (fun a => if P a then none else some (g a))) (l.map g) := by
  intro l
  induction l with
  | nil => simp
  | cons x xs ih =>
    by_cases h : P x
    · simpa [h] using List.Sublist.cons (g x) ih
    · simpa [h] using List.Sublist.cons₂ (g x) ih

/-- Helper: flattening the items of a skip-empty filterMap equals flattening
all the underlying lists, since the skipped ones are empty. -/
theorem flatten_map_items_gen {β : Type} (g : β → List AnalysisResult)
    (F : β → Option CategoryGroup)
    (hnone : ∀ c, F c = none → g c = [])
    (hsome : ∀ c gr, F c = some gr → gr.items = g c) :
    ∀ cats : List β,
      ((cats.filterMap F).map CategoryGroup.items).flatten = (cats.map g).flatten := by
  intro cats
  induction cats with
  | nil => rfl
  | cons c cs ih =>
    cases hF : F c with
    | none =>
      rw [List.filterMap_cons_none hF, List.map_cons, List.flatten_cons, hnone c hF,
        List.nil_append, ih]
    | some gr =>
      rw [List.filterMap_cons_some hF, List.map_cons, List.map_cons, List.flatten_cons,
        List.flatten_cons, hsome c gr hF, ih]

/-- Helper: the concatenation of all emitted group items equals the
concatenation of the per-known-category filters of the input. -/
theorem flatten_map_items (results : List AnalysisResult) :
    ((partitionAllGroups results).map CategoryGroup.items).flatten
      = ((CATEGORIES.filter (fun c => c.id ≠ "all")).map
          (fun c => results.filter (fun r => assignedCategory r = c.id))).flatten := by
  refine flatten_map_items_gen (fun c => results.filter (fun r => assignedCategory r = c.id))
    (fun c => if (results.filter (fun r => assignedCategory r = c.id)).isEmpty then none
      else some ⟨c.id, c.label, results.filter (fun r => assignedCategory r = c.id)⟩)
    ?_ ?_ (CATEGORIES.filter (fun c => c.id ≠ "all"))
  · intro c h
    by_cases he : (results.filter (fun r => assignedCategory r = c.id)).isEmpty
    · exact List.isEmpty_iff.mp he
    · simp [he] at h
  · intro c gr h
    by_cases he : (results.filter (fun r => assignedCategory r = c.id)).isEmpty
    · simp [he] at h
    · simp only [if_neg he, Option.some.injEq] at h
      rw [← h]

/-- Helper: counting in a filter is counting in the list, gated by the
predicate at the counted element. -/
theorem count_filter_ite {α : Type} [DecidableEq α] (p : α → Bool) (l : List α) (a : α) :
    (l.filter p).count a = if p a then l.count a else 0 := by
  by_cases h : p a
  · simp [List.count_filter, h]
  · rw [if_neg h, List.count_eq_zero]
    intro hmem
    exact h (List.mem_filter.mp hmem).2

/-- Helper: concatenating the filters of a list at each of a duplicate-free
list of keys is a permutation of the filter at key membership. -/
theorem flatten_filter_perm {α : Type} [DecidableEq α] (f : α → String) :
    ∀ ids : List String, ids.Nodup → ∀ l : List α,
      List.Perm ((ids.map (fun c => l.filter (fun x => f x = c))).flatten)
        (l.filter (fun x => f x ∈ ids)) := by
  intro ids
  induction ids with
  | nil => intro _ l; simp
  | cons c cs ih =>
    intro hnd l
    have hc : c ∉ cs := (List.nodup_cons.mp hnd).1
    have hcs : cs.Nodup := (List.nodup_cons.mp hnd).2
    simp only [List.map_cons, List.flatten_cons]
    have h1 := List.Perm.append_left (l.filter (fun x => f x = c)) (ih hcs l)
    refine h1.trans ?_
    rw [List.perm_iff_count]
    intro a
    rw [List.count_append, count_filter_ite, count_filter_ite, count_filter_ite]
    by_cases h1 : f a = c <;> by_cases h2 : f a ∈ cs
    · exact absurd (h1 ▸ h2) hc
    · simp [h1, h2, hc, List.mem_cons]
    · simp [h1, h2, hc, List.mem_cons]
    · simp [h1, h2, hc, List.mem_cons]

/-- C1 amended: in "all" mode, an input item whose assigned category
(`trend.category`, falling back to "trending" when falsy) is a known
category lies in exactly one emitted group; an item with an unrecognized
category lies in no emitted group; each group's items are a sublist of the
input (order preserved); and the concatenation of all group items is a
permutation of the input restricted to known assigned categories — not of
the whole input. -/
theorem partition_amended (results : List AnalysisResult) (r : AnalysisResult) (hr : r ∈ results) :
    (assignedCategory r ∈ knownIds →
       ∃! g : CategoryGroup, g ∈ partitionAllGroups results ∧ r ∈ g.items)
  ∧ (assignedCategory r ∉ knownIds →
       ∀ g ∈ partitionAllGroups results, r ∉ g.items)
  ∧ (∀ g ∈ partitionAllGroups results, List.Sublist g.items results)
  ∧ List.Perm (((partitionAllGroups results).map CategoryGroup.items).flatten)
      (results.filter (fun x => assignedCategory x ∈ knownIds)) := by
  refine ⟨?_, ?_, ?_, ?_⟩
  · intro hk
    simp only [knownIds, List.mem_map] at hk
    obtain ⟨c, hcf, hcid⟩ := hk
    have hrmem : r ∈ results.filter (fun x => assignedCategory x = c.id) :=
      List.mem_filter.mpr ⟨hr, by simp [hcid]⟩
    have hne : results.filter (fun x => assignedCategory x = c.id) ≠ [] :=
      List.ne_nil_of_mem hrmem
    refine ⟨⟨c.id, c.label, results.filter (fun x => assignedCategory x = c.id)⟩,
      ⟨(mem_partitionAllGroups results _).mpr ⟨c, hcf, rfl, hne⟩, hrmem⟩, ?_⟩
    rintro g' ⟨hg', hrg'⟩
    obtain ⟨c', hc'f, hg'eq, hne'⟩ := (mem_partitionAllGroups results g').mp hg'
    have hc'id : assignedCategory r = c'.id := by
      rw [hg'eq] at hrg'
      have h2 := (List.mem_filter.mp hrg').2
      simpa using h2
    have hcc : c' = c := by
      have h1 : c' ∈ CATEGORIES := (List.mem_filter.mp hc'f).1
      have h2 : c ∈ CATEGORIES := (List.mem_filter.mp hcf).1
      exact categories_id_inj c' h1 c h2 (by rw [← hc'id, hcid])
    rw [hg'eq, hcc]
  · intro hk g hg hrg
    obtain ⟨c, hcf, hgeq, hne⟩ := (mem_partitionAllGroups results g).mp hg
    apply hk
    have hcid : assignedCategory r = c.id := by
      rw [hgeq] at hrg
      have h2 := (List.mem_filter.mp hrg).2
      simpa using h2
    simp only [knownIds, List.mem_map]
    exact ⟨c, hcf, hcid.symm⟩
  · intro g hg
    obtain ⟨c, hcf, hgeq, hne⟩ := (mem_partitionAllGroups results g).mp hg
    rw [hgeq]
    exact List.filter_sublist results
  · have hmm : knownIds.map (fun cid => results.filter (fun x => assignedCategory x = cid))
        = (CATEGORIES.filter (fun c => c.id ≠ "all")).map
            (fun c => results.filter (fun x => assignedCategory x = c.id)) := by
      simp only [knownIds, List.map_map]
      rfl
    rw [flatten_map_items, ← hmm]
    exact flatten_filter_perm assignedCategory knownIds knownIds_nodup results

/-- Witness for C1 amended on a concrete one-element input. -/
theorem partition_amended_witness :
    List.Perm (((partitionAllGroups [mkResult "sports" "Likely Real" 10]).map
        CategoryGroup.items).flatten)
      ([mkResult "sports" "Likely Real" 10].filter
        (fun x => assignedCategory x ∈ knownIds)) :=
  (partition_amended [mkResult "sports" "Likely Real" 10]
    (mkResult "sports" "Likely Real" 10) (by decide)).2.2.2

/-- C6: the emitted group ids do not depend on the order of the input
(permuting the input leaves the id sequence unchanged); no emitted group is
empty; and the id sequence is a sublist of the fixed known-category order
(with "all" excluded). -/
theorem group_order_fixed (results results' : List AnalysisResult)
    (hperm : List.Perm results results') :
    ((partitionAllGroups results).map CategoryGroup.category_id
       = (partitionAllGroups results').map CategoryGroup.category_id)
  ∧ (∀ g ∈ partitionAllGroups results, g.items ≠ [])
  ∧ List.Sublist ((partitionAllGroups results).map CategoryGroup.category_id) knownIds := by
  refine ⟨?_, ?_, ?_⟩
  · rw [map_categoryId_partition, map_categoryId_partition]
    congr 1
    funext c
    have hl : (results.filter (fun r => assignedCategory r = c.id)).length
        = (results'.filter (fun r => assignedCategory r = c.id)).length :=
      (hperm.filter _).length_eq
    rw [isEmpty_eq_of_length_eq _ _ hl]
  · intro g hg
    obtain ⟨c, hcf, hgeq, hne⟩ := (mem_partitionAllGroups results g).mp hg
    rw [hgeq]
    exact hne
  · rw [map_categoryId_partition]
    have hs := filterMap_if_sublist Category.id
      (fun c => (results.filter (fun r => assignedCategory r = c.id)).isEmpty)
      (CATEGORIES.filter (fun c => c.id ≠ "all"))
    simp only [knownIds]
    exact hs

/-- Witness for C6 on a concrete two-element swap: "local" precedes "sports"
in the output whichever way the input is ordered. -/
theorem group_order_fixed_witness :
    (partitionAllGroups [mkResult "local" "a" 1, mkResult "sports" "b" 2]).map
        CategoryGroup.category_id
      = (partitionAllGroups [mkResult "sports" "b" 2, mkResult "local" "a" 1]).map
        CategoryGroup.category_id :=
  (group_order_fixed _ _ (List.Perm.swap _ _ _)).1
